import Mathlib

/-!
Verification development for the pbir-utils repository.

The definitions below are a shallow embedding of the Python sources:
  - src/json_utils.py        (update_dax_expression, update_entity, update_property)
  - src/csv_utils.py         (load_csv_mapping)
  - src/pbir_processor.py    (update_pbir_component, batch_update_pbir_project)
  - src/pbir_utils/pbir_report_sanitizer.py (the sanitize actions)
  - src/pbir_utils/rule_engine.py (_evaluate_expression_rule)

JSON documents are modelled by the inductive type `Json`; Python dicts become
association lists (keys unique in every document considered), Python mutation
becomes explicit state passing (each traversal returns the rewritten document
together with the `updated` flag the source accumulates), and file writes are
modelled as a Boolean "was persisted" component.  Python corner cases that
raise (indexing an empty list, hashing an unhashable value) are noted at the
definition they concern; documents exercising them do not occur in PBIR
projects and are outside every theorem below.
-/

namespace PbirUtils

/-- Generic JSON value, mirroring the dynamic dict/list/scalar documents the
Python code traverses. -/
inductive Json where
  | null : Json
  | bool : Bool → Json
  | num : Int → Json
  | str : String → Json
  | arr : List Json → Json
  | obj : List (String × Json) → Json

/-- Single quote character, used to build DAX string literals. -/
def sq : String := String.singleton '\''

/-- Lookup in an association list modelling a Python dict keyed by strings. -/
def lookupStr (m : List (String × String)) (k : String) : Option String :=
  match m with
  | [] => none
  | (a, b) :: rest => if k = a then some b else lookupStr rest k

/-- Lookup in an association list modelling a Python dict keyed by
(table, column) pairs, as in the column_map of batch_update_pbir_project. -/
def lookupPair (m : List ((String × String) × String)) (k : String × String) :
    Option String :=
  match m with
  | [] => none
  | (a, b) :: rest => if k = a then some b else lookupPair rest k

/-! ## Embedding of update_dax_expression (src/json_utils.py lines 4-56)

The function runs two regex substitution passes.  Pass 1 (table renames) uses

  (?<!\[)('+)?(\b[\w\s]+?\b)\1|\b([\w]+)\b(?!\])

and pass 2 (column renames) uses

  ('[A-Za-z0-9_ ]+'?|[A-Za-z0-9_]+)\[([A-Za-z0-9_]+)\]

We model Python re semantics directly: re.sub scans left to right, trying the
pattern at each position; alternatives are tried left first; + is greedy with
backtracking, +? is lazy; a backreference to a group that did not participate
in the match fails (so the first alternative of pass 1 only ever matches
quoted table tokens, and bare identifiers are handled by the second
alternative).  Python \w and \s are Unicode classes; the documents under
consideration are ASCII, where they coincide with the classes used here. -/

/-- Python regex \w on the ASCII range: letters, digits and underscore. -/
def wordChar (c : Char) : Bool := c.isAlphanum || c == '_'

/-- Python regex \s on the ASCII range. -/
def spaceChar (c : Char) : Bool :=
  c == ' ' || c == '\t' || c == '\n' || c == '\r' || c == '\x0b' || c == '\x0c'

/-- Character class [\w\s] from pass 1 of update_dax_expression. -/
def wordOrSpace (c : Char) : Bool := wordChar c || spaceChar c

/-- Character class [A-Za-z0-9_ ] from pass 2 of update_dax_expression. -/
def quotedTableChar (c : Char) : Bool := c.isAlphanum || c == '_' || c == ' '

/-- Character class [A-Za-z0-9_] from pass 2 of update_dax_expression. -/
def identChar (c : Char) : Bool := c.isAlphanum || c == '_'

/-- Does the character at index i satisfy p (false past the end)? -/
def charAtIs (p : Char → Bool) (cs : List Char) (i : Nat) : Bool :=
  match cs.get? i with
  | some c => p c
  | none => false

/-- Length of the maximal run of characters satisfying p starting at i. -/
def runLen (p : Char → Bool) (cs : List Char) (i : Nat) : Nat :=
  ((cs.drop i).takeWhile p).length

/-- The regex word-boundary predicate \b at position i of the subject. -/
def boundaryAt (cs : List Char) (i : Nat) : Bool :=
  if i = 0 then charAtIs wordChar cs 0
  else charAtIs wordChar cs (i - 1) != charAtIs wordChar cs i

/-- Slice of length len starting at index i. -/
def slice (cs : List Char) (i len : Nat) : List Char :=
  (cs.drop i).take len

/-- Greedy backtracking helper: try f at n, n-1, ..., 1 and return the first
success, as a backtracking + quantifier does. -/
def descTry (f : Nat → Option α) : Nat → Option α
  | 0 => none
  | n + 1 =>
    match f (n + 1) with
    | some r => some r
    | none => descTry f n

/-- Lazy matching helper: try f at lo, lo+1, ... for steps attempts and return
the first success, as a lazy +? quantifier does. -/
def ascTry (f : Nat → Option α) (lo : Nat) : Nat → Option α
  | 0 => none
  | steps + 1 =>
    match f lo with
    | some r => some r
    | none => ascTry f (lo + 1) steps

/-- Pass-1 alternative (?<!\[)('+)(\b[\w\s]+?\b)\1 at position i (the ('+)?
wrapper with zero quotes never matches because the backreference \1 then
fails, so at least one quote is required).  Returns (total length, quote
count, group-2 characters). -/
def matchTableQuoted (cs : List Char) (i : Nat) :
    Option (Nat × Nat × List Char) :=
  if i ≠ 0 && cs.get? (i - 1) == some '[' then none
  else
    let maxq := runLen (· == '\'') cs i
    descTry (fun k =>
      let j := i + k
      if boundaryAt cs j then
        let maxBody := runLen wordOrSpace cs j
        ascTry (fun l =>
          if boundaryAt cs (j + l) &&
              slice cs (j + l) k == List.replicate k '\'' then
            some (k + l + k, k, slice cs j l)
          else none) 1 maxBody
      else none) maxq

/-- Pass-1 alternative \b([\w]+)\b(?!\]) at position i.  Returns (length,
group-3 characters). -/
def matchTableBare (cs : List Char) (i : Nat) : Option (Nat × List Char) :=
  if boundaryAt cs i then
    let m := runLen wordChar cs i
    descTry (fun len =>
      if boundaryAt cs (i + len) && !(cs.get? (i + len) == some ']') then
        some (len, slice cs i len)
      else none) m
  else none

/-- Full pass-1 pattern at position i: the quoted alternative first, then the
bare one.  Returns (length, quote count, table-name characters); quote count
zero encodes the bare alternative (group 1 absent). -/
def matchTableToken (cs : List Char) (i : Nat) :
    Option (Nat × Nat × List Char) :=
  match matchTableQuoted cs i with
  | some r => some r
  | none =>
    match matchTableBare cs i with
    | some (len, name) => some (len, 0, name)
    | none => none

/-- The replacement function replace_table_name of update_dax_expression:
a mapped table name is substituted, gaining quotes when the new name contains
a space and the token was unquoted, otherwise keeping the original quoting;
an unmapped token is left verbatim. -/
def replaceTableName (tableMap : List (String × String)) (cs : List Char)
    (i len quotes : Nat) (name : List Char) : List Char :=
  match lookupStr tableMap name.asString with
  | some newTable =>
    if newTable.data.contains ' ' && quotes == 0 then
      '\'' :: (newTable.data ++ ['\''])
    else
      List.replicate quotes '\'' ++ newTable.data ++ List.replicate quotes '\''
  | none => slice cs i len

/-- re.sub scan loop for pass 1: at each position try the pattern; on a match
emit the replacement and resume after it, otherwise copy one character.
Fuel bounds the number of scan steps (cs.length + 1 always suffices). -/
def subTablePass (tableMap : List (String × String)) (cs : List Char) :
    Nat → Nat → List Char
  | _, 0 => []
  | i, fuel + 1 =>
    if i < cs.length then
      match matchTableToken cs i with
      | some (len, quotes, name) =>
        replaceTableName tableMap cs i len quotes name ++
          subTablePass tableMap cs (i + len) fuel
      | none =>
        (slice cs i 1) ++ subTablePass tableMap cs (i + 1) fuel
    else []

/-- Pass-2 tail [([A-Za-z0-9_]+)\] starting at the position of the opening
bracket.  Returns (tail length including brackets, column characters). -/
def matchColumnTail (cs : List Char) (p : Nat) : Option (Nat × List Char) :=
  if cs.get? p == some '[' then
    let m := runLen identChar cs (p + 1)
    descTry (fun cl =>
      if cs.get? (p + 1 + cl) == some ']' then
        some (1 + cl + 1, slice cs (p + 1) cl)
      else none) m
  else none

/-- Pass-2 pattern ('[A-Za-z0-9_ ]+'?|[A-Za-z0-9_]+)\[([A-Za-z0-9_]+)\] at
position i.  Returns (total length, group-1 characters, group-2 characters). -/
def matchColumnRef (cs : List Char) (i : Nat) :
    Option (Nat × List Char × List Char) :=
  let quoted :=
    if cs.get? i == some '\'' then
      let r := runLen quotedTableChar cs (i + 1)
      descTry (fun l =>
        let withQuote :=
          if cs.get? (i + 1 + l) == some '\'' then
            match matchColumnTail cs (i + 1 + l + 1) with
            | some (tlen, col) =>
              some (1 + l + 1 + tlen, slice cs i (1 + l + 1), col)
            | none => none
          else none
        match withQuote with
        | some r => some r
        | none =>
          match matchColumnTail cs (i + 1 + l) with
          | some (tlen, col) =>
            some (1 + l + tlen, slice cs i (1 + l), col)
          | none => none) r
    else none
  match quoted with
  | some r => some r
  | none =>
    let m := runLen identChar cs i
    descTry (fun l =>
      match matchColumnTail cs (i + l) with
      | some (tlen, col) => some (l + tlen, slice cs i l, col)
      | none => none) m

/-- Python str.strip applied with a quote: drop every leading and trailing
quote character. -/
def stripQuotes (cs : List Char) : List Char :=
  ((cs.dropWhile (· == '\'')).reverse.dropWhile (· == '\'')).reverse

/-- The replacement function replace_column_name of update_dax_expression:
when (table, column) is mapped, only the column is replaced and the table
token is re-emitted quoted exactly when it contains a space or was quoted. -/
def replaceColumnName (columnMap : List ((String × String) × String))
    (cs : List Char) (i len : Nat) (tablePart col : List Char) : List Char :=
  let tableName := stripQuotes tablePart
  match lookupPair columnMap (tableName.asString, col.asString) with
  | some newColumn =>
    let tp :=
      if tableName.contains ' ' || tablePart.head? == some '\'' then
        '\'' :: (tableName ++ ['\''])
      else tableName
    tp ++ '[' :: (newColumn.data ++ [']'])
  | none => slice cs i len

/-- re.sub scan loop for pass 2, analogous to subTablePass. -/
def subColumnPass (columnMap : List ((String × String) × String))
    (cs : List Char) : Nat → Nat → List Char
  | _, 0 => []
  | i, fuel + 1 =>
    if i < cs.length then
      match matchColumnRef cs i with
      | some (len, tablePart, col) =>
        replaceColumnName columnMap cs i len tablePart col ++
          subColumnPass columnMap cs (i + len) fuel
      | none =>
        (slice cs i 1) ++ subColumnPass columnMap cs (i + 1) fuel
    else []

/-- Embedding of update_dax_expression: run pass 1 when table_map is truthy
(non-empty) and pass 2 on its output when column_map is truthy. -/
def update_dax_expression (expression : String)
    (tableMap : List (String × String))
    (columnMap : List ((String × String) × String)) : String :=
  let cs1 :=
    if tableMap.isEmpty then expression.data
    else subTablePass tableMap expression.data 0 (expression.data.length + 1)
  let cs2 :=
    if columnMap.isEmpty then cs1
    else subColumnPass columnMap cs1 0 (cs1.length + 1)
  cs2.asString

/-! ## Embedding of update_entity and update_property (src/json_utils.py)

Both functions are in-place recursive traversals accumulating a nonlocal
`updated` flag; we return (rewritten document, flag).  The traversal is
structurally recursive on an explicit fuel argument (the Python recursion is
bounded by the document depth, so any fuel at least the depth gives the
Python behaviour; every theorem below either quantifies over fuel or uses a
concrete document with ample fuel). -/

/-- Map a (document, changed) transformer over a list, OR-ing the flags; the
Python loops keep iterating regardless of the flag, so no short-circuit. -/
def mapChanged (f : α → α × Bool) : List α → List α × Bool
  | [] => ([], false)
  | x :: xs =>
    let r := f x
    let rs := mapChanged f xs
    (r.1 :: rs.1, r.2 || rs.2)

/-- Field lookup inside a Json object (none when the document is not an
object or lacks the key). -/
def getField (j : Json) (k : String) : Option Json :=
  match j with
  | .obj fields => fields.lookup k
  | _ => none

/-- Python dict.get(key, {}) chained on documents: missing key or non-object
input yields the empty object.  (Python raises AttributeError on get applied
to a non-dict; such shapes do not occur and are collapsed to the default.) -/
def pyGetObj (j : Json) (k : String) : Json :=
  (getField j k).getD (.obj [])

/-- Replace the value of every field named k (object keys are unique in any
document parsed from JSON, so this is Python item assignment). -/
def setField (fields : List (String × Json)) (k : String) (v : Json) :
    List (String × Json) :=
  fields.map (fun kv => if kv.1 = k then (kv.1, v) else kv)

/-- Rename pass over one element of an "entities" array: if the element has a
string "name" field present in table_map, replace it (update_entity lines
80-83). -/
def renameNameField (tableMap : List (String × String))
    (fields : List (String × Json)) : List (String × Json) × Bool :=
  mapChanged (fun kv =>
    if kv.1 = "name" then
      match kv.2 with
      | .str s =>
        match lookupStr tableMap s with
        | some newName => ((kv.1, .str newName), true)
        | none => (kv, false)
      | _ => (kv, false)
    else (kv, false)) fields

/-- Processing of one element of an "entities" array (update_entity lines
80-84): rename its "name" field when mapped, then traverse the element with
the given recursive traversal. -/
def update_entity_elem (tableMap : List (String × String))
    (recur : Json → Json × Bool) (e : Json) : Json × Bool :=
  match e with
  | .obj efields =>
    let rn := renameNameField tableMap efields
    let rt := recur (.obj rn.1)
    (rt.1, rn.2 || rt.2)
  | other => recur other

/-- Processing of one dict entry by the traversal of update_entity, with the
recursive traversal abstracted as recur. -/
def update_entity_field (tableMap : List (String × String))
    (recur : Json → Json × Bool) (kv : String × Json) :
    (String × Json) × Bool :=
  if kv.1 = "Entity" then
    match kv.2 with
    | .str s =>
      match lookupStr tableMap s with
      | some newName => ((kv.1, Json.str newName), true)
      | none => (kv, false)
    | v =>
      -- non-string Entity values fall through to the else-branch of the
      -- source and are traversed (hash-unhashable values would raise)
      let r := recur v
      ((kv.1, r.1), r.2)
  else if kv.1 = "entities" then
    match kv.2 with
    | .arr elems =>
      let r := mapChanged (update_entity_elem tableMap recur) elems
      ((kv.1, Json.arr r.1), r.2)
    | v => ((kv.1, v), false)
      -- iterating a non-list here touches nothing of the shapes above
  else if kv.1 = "expression" then
    match kv.2 with
    | .str s =>
      let newExpr := update_dax_expression s tableMap []
      ((kv.1, Json.str newExpr), !(newExpr == s))
    | v =>
      let r := recur v
      ((kv.1, r.1), r.2)
  else
    let r := recur kv.2
    ((kv.1, r.1), r.2)

/-- Traversal of update_entity: rewrite "Entity" string values found in
table_map, rename "entities" array members (then recurse into them), rewrite
"expression" strings through update_dax_expression with the table map, and
recurse everywhere else.  Fuel-indexed; fuel 0 returns the document unchanged
with flag false. -/
def update_entity_go (tableMap : List (String × String)) :
    Nat → Json → Json × Bool
  | 0, j => (j, false)
  | fuel + 1, .obj fields =>
    let r := mapChanged
      (update_entity_field tableMap (update_entity_go tableMap fuel)) fields
    (.obj r.1, r.2)
  | fuel + 1, .arr items =>
    let r := mapChanged (update_entity_go tableMap fuel) items
    (.arr r.1, r.2)
  | _ + 1, j => (j, false)

/-- Extract the (Entity, Property) pair of a Column/Measure binding value,
requiring both to be truthy (non-empty) strings as the source does. -/
def columnShape (v : Json) : Option (String × String) :=
  match getField (pyGetObj (pyGetObj v "Expression") "SourceRef") "Entity" with
  | some (.str e) =>
    match getField v "Property" with
    | some (.str p) => if e ≠ "" && p ≠ "" then some (e, p) else none
    | _ => none
  | _ => none

/-- Apply the two assignments of the Column/Measure branch of
update_property: Entity is re-assigned (to the same string) and Property is
replaced. -/
def setColumnShape (v : Json) (entity newProperty : String) : Json :=
  match v with
  | .obj fields =>
    .obj (fields.map (fun kv =>
      if kv.1 = "Property" then (kv.1, Json.str newProperty)
      else if kv.1 = "Expression" then
        match kv.2 with
        | .obj efields =>
          (kv.1, Json.obj (efields.map (fun kv2 =>
            if kv2.1 = "SourceRef" then
              match kv2.2 with
              | .obj sfields => (kv2.1, Json.obj (setField sfields "Entity" (.str entity)))
              | other => (kv2.1, other)
            else kv2)))
        | other => (kv.1, other)
      else kv))
  | other => other

/-- Locate the Column object of one Where-condition along the fixed path
Condition → Not → Expression → In → Expressions[0] → Column, mirroring the
chain of .get defaults in update_property (an explicitly empty Expressions
list would raise IndexError in the source; it yields none here and no
rewrite, matching the no-op outcome of every non-raising shape). -/
def whereConditionColumn (cond : Json) : Json :=
  let inNode :=
    pyGetObj (pyGetObj (pyGetObj (pyGetObj cond "Condition") "Not")
      "Expression") "In"
  let firstExpr :=
    match getField inNode "Expressions" with
    | some (.arr (x :: _)) => x
    | _ => .obj []
  pyGetObj firstExpr "Column"

/-- Rebuild one Where-condition with the Property of its Column object
replaced, following the same fixed path. -/
def setWhereConditionProperty (cond : Json) (newProperty : String) : Json :=
  let mapF := fun (j : Json) (k : String) (f : Json → Json) =>
    match j with
    | .obj fields => Json.obj (fields.map (fun kv =>
        if kv.1 = k then (kv.1, f kv.2) else kv))
    | other => other
  mapF cond "Condition" (fun c =>
    mapF c "Not" (fun n =>
      mapF n "Expression" (fun e =>
        mapF e "In" (fun i =>
          mapF i "Expressions" (fun exprs =>
            match exprs with
            | .arr (x :: rest) =>
              .arr (mapF x "Column" (fun col =>
                match col with
                | .obj cfields => .obj (setField cfields "Property" (.str newProperty))
                | other => other) :: rest)
            | other => other)))))

/-- Process one Where-condition of a filter bound to from_entity. -/
def update_where_condition (columnMap : List ((String × String) × String))
    (fromEntity : String) (cond : Json) : Json × Bool :=
  match getField (whereConditionColumn cond) "Property" with
  | some (.str p) =>
    if p ≠ "" then
      match lookupPair columnMap (fromEntity, p) with
      | some newProperty => (setWhereConditionProperty cond newProperty, true)
      | none => (cond, false)
    else (cond, false)
  | _ => (cond, false)

/-- The filter branch of update_property: when the filter value carries both
a From list (whose first element names the bound entity) and a Where list,
rewrite each Where-condition keyed by that entity; any other shape is left
untouched (shapes that would raise in the source included). -/
def update_filter_value (columnMap : List ((String × String) × String))
    (k : String) (v : Json) : (String × Json) × Bool :=
  match getField v "From", getField v "Where" with
  | some (.arr (f0 :: _)), some (.arr conds) =>
    match getField f0 "Entity" with
    | some (.str fromEntity) =>
      let r := mapChanged (update_where_condition columnMap fromEntity) conds
      match v with
      | .obj ffields =>
        ((k, Json.obj (setField ffields "Where" (.arr r.1))), r.2)
      | other => ((k, other), r.2)
    | _ => ((k, v), false)
  | _, _ => ((k, v), false)

/-- Processing of one dict entry by the traversal of update_property, with
the recursive traversal abstracted as recur: rewrite Property fields of
Column/Measure bindings via (Entity, Property) lookups, rewrite "expression"
strings through update_dax_expression with the column map, rewrite filter
Where-conditions keyed by the filter's From entity, and recurse everywhere
else.  As in the source, Column/Measure and filter values are not recursed
into. -/
def update_property_field (columnMap : List ((String × String) × String))
    (recur : Json → Json × Bool) (kv : String × Json) :
    (String × Json) × Bool :=
  if kv.1 = "Column" || kv.1 = "Measure" then
    match columnShape kv.2 with
    | some (e, p) =>
      match lookupPair columnMap (e, p) with
      | some newProperty => ((kv.1, setColumnShape kv.2 e newProperty), true)
      | none => (kv, false)
    | none => (kv, false)
  else if kv.1 = "expression" then
    match kv.2 with
    | .str s =>
      let newExpr := update_dax_expression s [] columnMap
      if newExpr == s then (kv, false)
      else ((kv.1, Json.str newExpr), true)
    | v =>
      let r := recur v
      ((kv.1, r.1), r.2)
  else if kv.1 = "filter" then update_filter_value columnMap kv.1 kv.2
  else
    let r := recur kv.2
    ((kv.1, r.1), r.2)

/-- Traversal of update_property (see update_property_field for the per-entry
behaviour). -/
def update_property_go (columnMap : List ((String × String) × String)) :
    Nat → Json → Json × Bool
  | 0, j => (j, false)
  | fuel + 1, .obj fields =>
    let r := mapChanged
      (update_property_field columnMap (update_property_go columnMap fuel))
      fields
    (.obj r.1, r.2)
  | fuel + 1, .arr items =>
    let r := mapChanged (update_property_go columnMap fuel) items
    (.arr r.1, r.2)
  | _ + 1, j => (j, false)

/-! ## Embedding of update_pbir_component and the mapping builder
(src/pbir_processor.py) and load_csv_mapping (src/csv_utils.py). -/

/-- One component update (update_pbir_component lines 19-42): update_entity
runs only when table_map is truthy, update_property only when column_map is
truthy, and the file is written back exactly when one of them reported a
change.  The first component is the resulting on-disk document (the input
document when no write happens), the second is whether a write happened. -/
def update_pbir_component (tableMap : List (String × String))
    (columnMap : List ((String × String) × String)) (fuel : Nat)
    (doc : Json) : Json × Bool :=
  let re :=
    if tableMap.isEmpty then (doc, false) else update_entity_go tableMap fuel doc
  let rp :=
    if columnMap.isEmpty then (re.1, false)
    else update_property_go columnMap fuel re.1
  if re.2 || rp.2 then (rp.1, true) else (doc, false)

/-- One CSV row projected onto the four required fields. -/
structure CsvRow where
  old_tbl : String
  old_col : String
  new_tbl : String
  new_col : String
deriving DecidableEq, Repr

/-- Python str.lstrip applied with the BOM character: drop every leading
BOM. -/
def stripBom (s : String) : String :=
  (s.data.dropWhile (· == '\uFEFF')).asString

/-- The row filter of load_csv_mapping line 25 under Python truthiness:
old_tbl non-empty and (new_tbl non-empty or both old_col and new_col
non-empty). -/
def rowAccepted (r : CsvRow) : Bool :=
  r.old_tbl ≠ "" && (r.new_tbl ≠ "" || (r.old_col ≠ "" && r.new_col ≠ ""))

/-- Python row[key] access: a present key yields its value, a missing key
raises KeyError. -/
def requireField (row : List (String × String)) (k : String) :
    Except String String :=
  match row.lookup k with
  | some v => Except.ok v
  | none => Except.error "KeyError"

/-- The row loop of load_csv_mapping lines 23-26: read the four fields of
every row in order (a missing key raises) and keep the rows passing the
filter.  Projecting each surviving dict onto its four required fields is
observationally equivalent to keeping the dict, because downstream code reads
only those fields. -/
def projectRows : List (List (String × String)) → Except String (List CsvRow)
  | [] => .ok []
  | row :: rest => do
    let ot ← requireField row "old_tbl"
    let oc ← requireField row "old_col"
    let nt ← requireField row "new_tbl"
    let nc ← requireField row "new_col"
    let tail ← projectRows rest
    let r : CsvRow := { old_tbl := ot, old_col := oc, new_tbl := nt, new_col := nc }
    pure (if rowAccepted r then r :: tail else tail)

/-- Projection of a row dictionary onto the four required fields (with the
empty string for an absent key; used only where every key is present). -/
def projRow (row : List (String × String)) : CsvRow :=
  { old_tbl := (row.lookup "old_tbl").getD ""
    old_col := (row.lookup "old_col").getD ""
    new_tbl := (row.lookup "new_tbl").getD ""
    new_col := (row.lookup "new_col").getD "" }

/-- Embedding of load_csv_mapping: the parsed CSV is its header field names
and its rows as dictionaries keyed by those names.  Missing required header
columns (after BOM stripping) raise ValueError; accessing a required field a
row lacks raises KeyError; otherwise the accepted rows are returned.  Both
error cases are Except.error, and happen before any report file is
touched. -/
def load_csv_mapping (fieldnames : List String)
    (rows : List (List (String × String))) : Except String (List CsvRow) :=
  let stripped := fieldnames.map stripBom
  let expected := ["old_tbl", "old_col", "new_tbl", "new_col"]
  if !(expected.all (stripped.contains ·)) then
    .error "CSV file must contain the following columns: old_tbl, old_col, new_tbl, new_col"
  else
    projectRows rows

/-- Python dict assignment on an association list: overwrite the existing
binding or append a new one. -/
def dictInsert (m : List (α × β)) (k : α) (v : β) [DecidableEq α] :
    List (α × β) :=
  if m.any (fun kv => kv.1 = k) then
    m.map (fun kv => if kv.1 = k then (k, v) else kv)
  else m ++ [(k, v)]

/-- The mapping-builder loop of batch_update_pbir_project lines 63-69: a row
adds old_tbl → new_tbl to the table map when new_tbl is truthy and differs
from old_tbl, and adds (effective_tbl, old_col) → new_col to the column map
when both column fields are truthy, where effective_tbl is the table map
image of old_tbl at that point (including the current row's own entry). -/
def build_rename_maps (rows : List CsvRow) :
    List (String × String) × List ((String × String) × String) :=
  rows.foldl (fun maps r =>
    let tableMap :=
      if r.new_tbl ≠ "" && r.new_tbl ≠ r.old_tbl then
        dictInsert maps.1 r.old_tbl r.new_tbl
      else maps.1
    let columnMap :=
      if r.old_col ≠ "" && r.new_col ≠ "" then
        let effective := (lookupStr tableMap r.old_tbl).getD r.old_tbl
        dictInsert maps.2 (effective, r.old_col) r.new_col
      else maps.2
    (tableMap, columnMap)) ([], [])

/-- Batch flow of batch_update_pbir_project: load the CSV; on error nothing
is processed (the exception is caught and reported, leaving every document
untouched); otherwise build the maps and run update_pbir_component over each
JSON document of the project. -/
def batch_update_pbir_project (fieldnames : List String)
    (rows : List (List (String × String))) (fuel : Nat)
    (docs : List Json) : List Json :=
  match load_csv_mapping fieldnames rows with
  | .error _ => docs
  | .ok mappings =>
    let maps := build_rename_maps mappings
    docs.map (fun d => (update_pbir_component maps.1 maps.2 fuel d).1)

/-! ## Embedding of the sanitize actions
(src/pbir_utils/pbir_report_sanitizer.py)

Each action reads a fixed slice of the on-disk forest; the embeddings take
that slice as typed input (the fields the source actually accesses) and
return the rewritten slice together with the decisions taken.  File and
folder deletions become explicit result components. -/

/-- The slice of a visual.json document read by the bookmark-usage scan
(_check_visual, lines 93-119): the visual type, the bookmarkGroup literal of
each visual.objects.bookmarks entry (none when any link of the chain is
absent), and the bookmark literal of each visualContainerObjects.visualLink
entry. -/
structure VisualDoc where
  visualType : Option String
  bookmarkGroupLiterals : List (Option String)
  visualLinkLiterals : List (Option String)
deriving DecidableEq, Repr

/-- Embedding of _check_visual: a bookmarkNavigator uses the bookmark when
some bookmarks entry's bookmarkGroup literal equals the quoted name; any
other visual uses it when some visualLink bookmark literal equals the quoted
name.  There is no wildcard case for an empty-string or absent literal. -/
def checkVisualUsesBookmark (v : VisualDoc) (name : String) : Bool :=
  if v.visualType == some "bookmarkNavigator" then
    v.bookmarkGroupLiterals.any (fun lit => lit == some (sq ++ name ++ sq))
  else
    v.visualLinkLiterals.any (fun lit => lit == some (sq ++ name ++ sq))

/-- Embedding of _is_bookmark_used: some visual of the report uses the
bookmark. -/
def isBookmarkUsed (visuals : List VisualDoc) (name : String) : Bool :=
  visuals.any (fun v => checkVisualUsesBookmark v name)

/-- One entry of bookmarks.json "items": a top-level bookmark name with an
optional children list (a bookmark group). -/
structure BookmarkItem where
  name : String
  children : Option (List String)
deriving DecidableEq, Repr

/-- Result of remove_unused_bookmarks: the rewritten items list, the number
of removed top-level items, the set of names retained as used, the deleted
bookmark files, and whether the whole bookmarks folder was deleted. -/
structure RemoveBookmarksResult where
  items : List BookmarkItem
  removed : Nat
  usedSet : List String
  deletedFiles : List String
  dirRemoved : Bool
deriving DecidableEq, Repr

/-- Embedding of remove_unused_bookmarks (lines 66-168): a top-level item is
kept when directly used (its children then all marked used) or when some of
its children are used (children pruned to the used ones); bookmark files
whose name is not in the used set are deleted, and the folder is deleted when
no item remains.  bookmarkFiles lists the "name" field of each on-disk
.bookmark.json file. -/
def remove_unused_bookmarks (visuals : List VisualDoc)
    (items : List BookmarkItem) (bookmarkFiles : List String) :
    RemoveBookmarksResult :=
  let step := fun (acc : List String × List BookmarkItem) (item : BookmarkItem) =>
    if isBookmarkUsed visuals item.name then
      let used1 := acc.1 ++ [item.name]
      let used2 :=
        match item.children with
        | some cs => used1 ++ cs
        | none => used1
      (used2, acc.2 ++ [item])
    else
      match item.children with
      | some cs =>
        let usedChildren := cs.filter (isBookmarkUsed visuals)
        if !usedChildren.isEmpty then
          (acc.1 ++ usedChildren ++ [item.name],
           acc.2 ++ [{ item with children := some usedChildren }])
        else acc
      | none => acc
  let result := items.foldl step ([], [])
  { items := result.2
    removed := items.length - result.2.length
    usedSet := result.1
    deletedFiles := bookmarkFiles.filter (fun f => !(result.1.contains f))
    dirRemoved := result.2.isEmpty }

/-- Embedding of remove_unused_custom_visuals (lines 171-214) on the slice it
reads: the declared publicCustomVisuals list (none when the key is absent)
and the visualType of every instantiated visual.  Returns the resulting
declaration and whether report.json was written.  When no declared visual is
used, the source executes report_data["publicCustomVisuals"] =
report_data.pop("publicCustomVisuals", None): the pop removes the key but the
surrounding assignment immediately re-inserts it with its old value, so the
key survives unchanged. -/
def remove_unused_custom_visuals (declared : Option (List String))
    (instantiated : List (Option String)) : Option (List String) × Bool :=
  let custom := declared.getD []
  if custom.isEmpty then (declared, false)
  else
    let used := ((instantiated.filterMap id).filter (custom.contains ·)).dedup
    let unused := custom.filter (fun c => !(used.contains c))
    if !unused.isEmpty then
      if !used.isEmpty then (some used, true)
      else (declared, true)
    else (declared, false)

/-- Short-circuiting traversal used by _remove_show_all: Python any() over a
generator stops consuming at the first True, so elements after the first
modified one are left untouched. -/
def anyShortCircuit (f : α → α × Bool) : List α → List α × Bool
  | [] => ([], false)
  | x :: xs =>
    let r := f x
    if r.2 then (r.1 :: xs, true)
    else
      let rs := anyShortCircuit f xs
      (r.1 :: rs.1, rs.2)

/-- Embedding of _remove_show_all (lines 229-237): a dict containing a
showAll key has that key deleted and reports True immediately, without
visiting its other values; otherwise its values (or list items) are visited
in order until the first one reports True. -/
def remove_show_all : Nat → Json → Json × Bool
  | 0, j => (j, false)
  | fuel + 1, .obj fields =>
    if fields.any (fun kv => kv.1 == "showAll") then
      (.obj (fields.filter (fun kv => !(kv.1 == "showAll"))), true)
    else
      let r := anyShortCircuit (fun kv =>
        let s := remove_show_all fuel kv.2
        ((kv.1, s.1), s.2)) fields
      (.obj r.1, r.2)
  | fuel + 1, .arr items =>
    let r := anyShortCircuit (remove_show_all fuel) items
    (.arr r.1, r.2)
  | _ + 1, j => (j, false)

/-- Embedding of disable_show_items_with_no_data (lines 217-249): each
visual.json document is processed by _remove_show_all and written back when
it reported a change; the second component counts the modified files (the
decision set of this run). -/
def disable_show_items_with_no_data (fuel : Nat) (visuals : List Json) :
    List Json × Nat :=
  (visuals.map (fun v =>
     let r := remove_show_all fuel v
     if r.2 then r.1 else v),
   (visuals.filter (fun v => (remove_show_all fuel v).2)).length)

/-- The slice of a page.json document read by
hide_tooltip_drillthrough_pages. -/
structure PageDoc where
  displayName : Option String
  bindingType : Option String
  visibility : Option String
deriving DecidableEq, Repr

/-- The condition of _check_page (lines 264-273): a Tooltip or Drillthrough
page not already HiddenInViewMode. -/
def pageNeedsHiding (p : PageDoc) : Bool :=
  (p.bindingType == some "Tooltip" || p.bindingType == some "Drillthrough") &&
    !(p.visibility == some "HiddenInViewMode")

/-- A page enters the decision set when _check_page returns a truthy value:
the display name (default "Unnamed Page") must additionally be non-empty,
because _process_or_check_json_files drops falsy results. -/
def pageDecision (p : PageDoc) : Bool :=
  pageNeedsHiding p && !(p.displayName.getD "Unnamed Page" == "")

/-- One page's update by hide_tooltip_drillthrough_pages: pages in the
decision set get visibility HiddenInViewMode. -/
def hidePage (p : PageDoc) : PageDoc :=
  if pageDecision p then { p with visibility := some "HiddenInViewMode" }
  else p

/-- Embedding of hide_tooltip_drillthrough_pages (lines 252-288): every page
in the decision set gets visibility HiddenInViewMode; the second component is
the decision set (the reported page names). -/
def hide_tooltip_drillthrough_pages (pages : List PageDoc) :
    List PageDoc × List String :=
  (pages.map hidePage,
   (pages.filter pageDecision).map (fun p => p.displayName.getD "Unnamed Page"))

/-- The slice of pages.json read by set_first_page_as_active. -/
structure PagesConfig where
  pageOrder : List String
  activePageName : Option String
deriving DecidableEq, Repr

/-- Embedding of set_first_page_as_active (lines 291-314): when the first
entry of pageOrder is not the active page, make it active and write the file.
An empty pageOrder raises IndexError in the source; it is returned unchanged
here and excluded by hypothesis in the theorems. -/
def set_first_page_as_active (pd : PagesConfig) : PagesConfig × Bool :=
  match pd.pageOrder with
  | [] => (pd, false)
  | first :: _ =>
    if !(pd.activePageName == some first) then
      ({ pd with activePageName := some first }, true)
    else (pd, false)

/-- The slice of a visual.json file read by remove_hidden_visuals_never_shown:
the visual name (absent names are skipped), the isHidden flag, and the visual
folder derived from the file path. -/
structure HiddenVisualFile where
  name : Option String
  isHidden : Bool
  folder : String
deriving DecidableEq, Repr

/-- One visualContainers entry of a bookmark section: the visual name and
whether its singleVisual object carries a display override key. -/
structure BookmarkSectionEntry where
  visualName : String
  hasDisplay : Bool
deriving DecidableEq, Repr

/-- The slice of a .bookmark.json file read by
remove_hidden_visuals_never_shown: the explorationState sections with their
visualContainers entries. -/
structure BookmarkDoc where
  sections : List (String × List BookmarkSectionEntry)
deriving DecidableEq, Repr

/-- The slice of a page.json file relevant to claim C3: its
visualInteractions entries as (source, target) pairs.  The source of
remove_hidden_visuals_never_shown never opens page.json. -/
structure PageInteractions where
  name : String
  visualInteractions : List (String × String)
deriving DecidableEq, Repr

/-- Result of remove_hidden_visuals_never_shown. -/
structure RemoveHiddenResult where
  alwaysHidden : List String
  deletedFolders : List String
  bookmarks : List BookmarkDoc
  updatedBookmarks : Nat
  pages : List PageInteractions
deriving DecidableEq, Repr

/-- Embedding of remove_hidden_visuals_never_shown (lines 372-450): collect
hidden visuals (name → folder), compute the ones shown by some bookmark
container entry without a display override, delete the folders of the rest,
and prune those names from every bookmark's visualContainers.  The pages
component is passed through untouched, because the source reads and writes no
page.json in this action. -/
def remove_hidden_visuals_never_shown (visuals : List HiddenVisualFile)
    (bookmarks : List BookmarkDoc) (pages : List PageInteractions) :
    RemoveHiddenResult :=
  let hiddenMap := visuals.foldl (fun m v =>
    if v.isHidden then
      match v.name with
      | some n => if n ≠ "" then dictInsert m n v.folder else m
      | none => m
    else m) ([] : List (String × String))
  let shown := bookmarks.flatMap (fun b =>
    b.sections.flatMap (fun sec =>
      (sec.2.filter (fun e =>
        (hiddenMap.any (fun kv => kv.1 = e.visualName)) && !e.hasDisplay)).map
        (fun e => e.visualName)))
  let alwaysHidden :=
    (hiddenMap.map (fun kv => kv.1)).filter (fun n => !(shown.contains n))
  let pruneBookmark := fun (b : BookmarkDoc) =>
    ({ sections := b.sections.map (fun sec =>
        (sec.1, sec.2.filter (fun e => !(alwaysHidden.contains e.visualName)))) }
      : BookmarkDoc)
  let bookmarkChanged := fun (b : BookmarkDoc) =>
    b.sections.any (fun sec =>
      sec.2.any (fun e => alwaysHidden.contains e.visualName))
  { alwaysHidden := alwaysHidden
    deletedFolders := alwaysHidden.filterMap (fun n => lookupStr hiddenMap n)
    bookmarks := bookmarks.map pruneBookmark
    updatedBookmarks := (bookmarks.filter bookmarkChanged).length
    pages := pages }

/-! ## Embedding of _evaluate_expression_rule
(src/pbir_utils/rule_engine.py lines 199-348)

The Python eval of the rule expression against a unit's environment is
abstracted as a function from the evaluation environment to
Except String Bool: Except.error models a raised exception, Except.ok the
truthiness of the evaluated result.  The five scope branches are mirrored
including which of them record an erroring unit and which silently skip
it. -/

/-- The fields of a RuleSpec the evaluation reads for reporting. -/
structure RuleSpec where
  displayName : String
  description : Option String
deriving DecidableEq, Repr

/-- One page of the loaded PBIR context together with its visuals. -/
structure PageCtx where
  name : String
  displayName : Option String
  visuals : List (Option String × Option String)
deriving DecidableEq, Repr
-- each visual is (its "name" field, its visual.visualType field)

/-- One reportExtensions entity with its measures (measure names). -/
structure EntityCtx where
  name : Option String
  measures : List (Option String)
deriving DecidableEq, Repr

/-- The loaded PBIR context slice used by expression rules. -/
structure PbirContext where
  pages : List PageCtx
  entities : List EntityCtx
  bookmarks : List (Option String)
deriving DecidableEq, Repr
-- bookmarks carry their "name" field

/-- A violation record as assembled by the scope branches. -/
structure Violation where
  message : String
  pageName : Option String := none
  visualName : Option String := none
  visualType : Option String := none
  measureName : Option String := none
  entityName : Option String := none
  bookmarkName : Option String := none
deriving DecidableEq, Repr

/-- Rule scopes of _evaluate_expression_rule. -/
inductive RuleScope where
  | report
  | page
  | visual
  | measure
  | bookmark
deriving DecidableEq, Repr

/-- The evaluation environment passed to the abstracted Python eval. -/
inductive EvalEnv where
  | report
  | page (p : PageCtx)
  | visual (p : PageCtx) (v : Option String × Option String)
  | measure (e : EntityCtx) (m : Option String)
  | bookmark (b : Option String)

/-- The failure message of a unit: the rule description, defaulting to
"display name failed". -/
def ruleFailMessage (rule : RuleSpec) : String :=
  rule.description.getD (rule.displayName ++ " failed")

/-- Embedding of _evaluate_expression_rule: evaluate the rule expression per
unit of the scope.  A false result records a violation for the unit.  An
exception is caught in every branch; at report and page scope it is recorded
as an "Expression error" violation, while at visual, measure and bookmark
scope the except-pass makes the erroring unit contribute nothing.  The result
is (passed, violations) with passed true exactly when no violation was
collected. -/
def evaluate_expression_rule (rule : RuleSpec) (ctx : PbirContext)
    (ev : EvalEnv → Except String Bool) (scope : RuleScope) :
    Bool × List Violation :=
  let violations :=
    match scope with
    | .report =>
      match ev .report with
      | .ok true => []
      | .ok false => [{ message := ruleFailMessage rule }]
      | .error e => [{ message := "Expression error: " ++ e }]
    | .page =>
      ctx.pages.flatMap (fun p =>
        match ev (.page p) with
        | .ok true => []
        | .ok false =>
          [{ message := ruleFailMessage rule
             pageName := some (p.displayName.getD p.name) }]
        | .error e => [{ message := "Expression error on page: " ++ e }])
    | .visual =>
      ctx.pages.flatMap (fun p =>
        p.visuals.flatMap (fun v =>
          match ev (.visual p v) with
          | .ok true => []
          | .ok false =>
            [{ message := ruleFailMessage rule
               pageName := some (p.displayName.getD p.name)
               visualName := some (v.1.getD "unknown")
               visualType := some (v.2.getD "unknown") }]
          | .error _ => []))
    | .measure =>
      ctx.entities.flatMap (fun ent =>
        ent.measures.flatMap (fun m =>
          match ev (.measure ent m) with
          | .ok true => []
          | .ok false =>
            [{ message := ruleFailMessage rule
               measureName := some (m.getD "unknown")
               entityName := some (ent.name.getD "Unknown") }]
          | .error _ => []))
    | .bookmark =>
      ctx.bookmarks.flatMap (fun b =>
        match ev (.bookmark b) with
        | .ok true => []
        | .ok false =>
          [{ message := ruleFailMessage rule
             bookmarkName := some (b.getD "unknown") }]
        | .error _ => [])
  (violations.isEmpty, violations)

/-! ## Common concrete documents used by the theorems. -/

/-- A minimal document holding one Column binding with the given Entity and
Property, the scenario document of the column-map keying property. -/
def columnBindingDoc (t c : String) : Json :=
  .obj [("Column", .obj
    [("Expression", .obj [("SourceRef", .obj [("Entity", .str t)])]),
     ("Property", .str c)])]

/-- A visual document carrying showAll keys under two sibling keys. -/
def showAllTwice : Json :=
  .obj [("a", .obj [("showAll", .bool true)]),
        ("b", .obj [("showAll", .bool true)])]

/-- Well-formedness of a document as produced by Python's json parser: the
keys of every object are pairwise distinct (a Python dict cannot hold
duplicate keys). -/
inductive JsonWf : Json → Prop
  | null : JsonWf .null
  | bool (b : Bool) : JsonWf (.bool b)
  | num (n : Int) : JsonWf (.num n)
  | str (s : String) : JsonWf (.str s)
  | arr {items : List Json} :
      (∀ j ∈ items, JsonWf j) → JsonWf (.arr items)
  | obj {fields : List (String × Json)} :
      (fields.map Prod.fst).Nodup →
      (∀ kv ∈ fields, JsonWf kv.2) → JsonWf (.obj fields)

end PbirUtils

namespace PbirUtils

/-- A transformer that leaves elements unchanged whenever it reports no
change lifts through mapChanged. -/
theorem mapChanged_eq_of_flag_false {f : α → α × Bool} :
    ∀ {l : List α}, (∀ a ∈ l, (f a).2 = false → (f a).1 = a) →
      (mapChanged f l).2 = false → (mapChanged f l).1 = l := by
  intro l
  induction l with
  | nil => intro _ _; rfl
  | cons x xs ih =>
    intro hf h
    simp only [mapChanged, Bool.or_eq_false_iff] at h ⊢
    refine congrArg₂ (· :: ·) ?_ ?_
    · exact hf x (by simp) h.1
    · exact ih (fun a ha => hf a (by simp [ha])) h.2

/-- renameNameField leaves the fields unchanged when it reports no change. -/
theorem renameNameField_eq_of_flag_false (tm : List (String × String))
    (fields : List (String × Json)) :
    (renameNameField tm fields).2 = false →
      (renameNameField tm fields).1 = fields := by
  refine mapChanged_eq_of_flag_false (fun kv _ => ?_)
  by_cases hk : kv.1 = "name"
  · simp only [hk, if_true]
    match kv with
    | (k, .str s) =>
      cases hl : lookupStr tm s with
      | some newName => simp [hk, hl]
      | none => simp [hk, hl]
    | (k, .null) | (k, .bool _) | (k, .num _) | (k, .arr _) | (k, .obj _) =>
      simp [hk]
  · simp [hk]

/-- update_entity_elem leaves an element unchanged when it reports no change,
provided the recursive traversal does. -/
theorem update_entity_elem_eq_of_flag_false (tm : List (String × String))
    (recur : Json → Json × Bool)
    (hr : ∀ j, (recur j).2 = false → (recur j).1 = j) (e : Json) :
    (update_entity_elem tm recur e).2 = false →
      (update_entity_elem tm recur e).1 = e := by
  match e with
  | .obj efields =>
    intro h
    simp only [update_entity_elem, Bool.or_eq_false_iff] at h ⊢
    have hn := renameNameField_eq_of_flag_false tm efields h.1
    have ht := hr (.obj (renameNameField tm efields).1) h.2
    rw [ht, hn]
  | .null | .bool _ | .num _ | .str _ | .arr _ =>
    intro h
    exact hr _ h

/-- update_entity_field leaves an entry unchanged when it reports no change,
provided the recursive traversal does. -/
theorem update_entity_field_eq_of_flag_false (tm : List (String × String))
    (recur : Json → Json × Bool)
    (hr : ∀ j, (recur j).2 = false → (recur j).1 = j) (kv : String × Json) :
    (update_entity_field tm recur kv).2 = false →
      (update_entity_field tm recur kv).1 = kv := by
  obtain ⟨k, v⟩ := kv
  simp only [update_entity_field]
  split_ifs with h1 h2 h3
  · match v with
    | .str s =>
      cases hl : lookupStr tm s with
      | some newName => simp [hl]
      | none => simp [hl]
    | .null | .bool _ | .num _ | .arr _ | .obj _ =>
      intro h
      simp only [Prod.mk.injEq] at h ⊢
      exact ⟨trivial, hr _ h⟩
  · match v with
    | .arr elems =>
      intro h
      simp only [Prod.mk.injEq, Json.arr.injEq] at h ⊢
      exact ⟨trivial, mapChanged_eq_of_flag_false
        (fun e _ => update_entity_elem_eq_of_flag_false tm recur hr e) h⟩
    | .null | .bool _ | .num _ | .str _ | .obj _ =>
      intro _; rfl
  · match v with
    | .str s =>
      intro h
      have hx : update_dax_expression s tm [] = s := by simpa using h
      simp [hx]
    | .null | .bool _ | .num _ | .arr _ | .obj _ =>
      intro h
      simp only [Prod.mk.injEq] at h ⊢
      exact ⟨trivial, hr _ h⟩
  · intro h
    simp only [Prod.mk.injEq] at h ⊢
    exact ⟨trivial, hr _ h⟩

/-- update_entity reports no change only on documents it leaves unchanged
(at any fuel). -/
theorem update_entity_go_eq_of_flag_false (tm : List (String × String)) :
    ∀ (fuel : Nat) (j : Json), (update_entity_go tm fuel j).2 = false →
      (update_entity_go tm fuel j).1 = j := by
  intro fuel
  induction fuel with
  | zero => intro j _; rfl
  | succ n ih =>
    intro j
    match j with
    | .null | .bool _ | .num _ | .str _ => intro _; rfl
    | .obj fields =>
      intro h
      simp only [update_entity_go] at h ⊢
      rw [mapChanged_eq_of_flag_false
        (fun kv _ => update_entity_field_eq_of_flag_false tm _ ih kv) h]
    | .arr items =>
      intro h
      simp only [update_entity_go] at h ⊢
      rw [mapChanged_eq_of_flag_false (fun e _ => ih e) h]

/-- setField is the identity when the key does not occur. -/
theorem setField_eq_of_not_mem {fields : List (String × Json)} {k : String}
    {v : Json} (h : k ∉ fields.map Prod.fst) : setField fields k v = fields := by
  induction fields with
  | nil => rfl
  | cons kv rest ih =>
    simp only [List.map_cons, List.mem_cons, not_or] at h
    simp only [setField, List.map_cons]
    rw [if_neg (fun he => h.1 he.symm)]
    have := ih h.2
    simp only [setField] at this
    rw [this]

/-- On an object with pairwise-distinct keys, re-assigning a key to the value
it already holds is the identity. -/
theorem setField_eq_of_lookup {fields : List (String × Json)} {k : String}
    {v : Json} (hnd : (fields.map Prod.fst).Nodup)
    (hl : fields.lookup k = some v) : setField fields k v = fields := by
  induction fields with
  | nil => simp [List.lookup] at hl
  | cons kv rest ih =>
    obtain ⟨a, b⟩ := kv
    simp only [List.map_cons, List.nodup_cons] at hnd
    by_cases hk : k = a
    · subst hk
      simp only [List.lookup, beq_self_eq_true] at hl
      obtain rfl : b = v := by simpa using hl
      have hrest : setField rest k b = rest := setField_eq_of_not_mem hnd.1
      simp only [setField] at hrest
      simp [setField, hrest]
    · have hb : (k == a) = false := by simpa using hk
      simp only [List.lookup, hb] at hl
      have hrest := ih hnd.2 hl
      simp only [setField, List.map_cons] at hrest ⊢
      rw [if_neg (fun he => hk he.symm), hrest]

/-- update_where_condition leaves a condition unchanged when it reports no
change. -/
theorem update_where_condition_eq_of_flag_false
    (cm : List ((String × String) × String)) (fe : String) (cond : Json) :
    (update_where_condition cm fe cond).2 = false →
      (update_where_condition cm fe cond).1 = cond := by
  unfold update_where_condition
  split
  · next p hp =>
    split_ifs with h
    · cases hl : lookupPair cm (fe, p) with
      | some newProperty => simp [hl]
      | none => simp [hl]
    · intro _; rfl
  · intro _; rfl

/-- update_filter_value leaves an entry unchanged when it reports no change,
provided the entry's value has pairwise-distinct object keys. -/
theorem update_filter_value_eq_of_flag_false
    (cm : List ((String × String) × String)) (k : String) (v : Json)
    (hwf : JsonWf v) :
    (update_filter_value cm k v).2 = false →
      (update_filter_value cm k v).1 = (k, v) := by
  match v, hwf with
  | .null, _ | .bool _, _ | .num _, _ | .str _, _ | .arr _, _ =>
    intro _; rfl
  | .obj ffields, hwf =>
    cases hwf with
    | obj hnd hmem =>
      unfold update_filter_value
      cases hFrom : getField (Json.obj ffields) "From" with
      | none => intro _; rfl
      | some jf =>
        match jf with
        | .null | .bool _ | .num _ | .str _ | .obj _ | .arr [] =>
          intro _; rfl
        | .arr (f0 :: fr) =>
          cases hWhere : getField (Json.obj ffields) "Where" with
          | none => intro _; rfl
          | some jw =>
            match jw with
            | .null | .bool _ | .num _ | .str _ | .obj _ => intro _; rfl
            | .arr conds =>
              cases hEnt : getField f0 "Entity" with
              | none => intro _; simp [hEnt]
              | some je =>
                match je with
                | .null | .bool _ | .num _ | .arr _ | .obj _ =>
                  intro _; simp [hEnt]
                | .str fromEntity =>
                  intro h
                  simp only [hEnt] at h ⊢
                  have hconds := mapChanged_eq_of_flag_false
                    (fun c _ =>
                      update_where_condition_eq_of_flag_false cm fromEntity c) h
                  rw [hconds, setField_eq_of_lookup hnd
                    (by simpa [getField] using hWhere)]

/-- update_property_field leaves an entry unchanged when it reports no
change, provided the entry's value is well formed and the recursive traversal
behaves likewise on well-formed documents. -/
theorem update_property_field_eq_of_flag_false
    (cm : List ((String × String) × String)) (recur : Json → Json × Bool)
    (hr : ∀ j, JsonWf j → (recur j).2 = false → (recur j).1 = j)
    (kv : String × Json) (hwf : JsonWf kv.2) :
    (update_property_field cm recur kv).2 = false →
      (update_property_field cm recur kv).1 = kv := by
  obtain ⟨k, v⟩ := kv
  simp only [update_property_field]
  split_ifs with h1 h2 h3
  · match columnShape v with
    | some (e, p) =>
      cases hl : lookupPair cm (e, p) with
      | some newProperty => simp [hl]
      | none => simp [hl]
    | none => intro _; rfl
  · match v with
    | .str s =>
      intro h
      by_cases hx : update_dax_expression s [] cm = s
      · have hb : (update_dax_expression s [] cm == s) = true := by
          simpa using hx
        simp [hb]
      · have hb : (update_dax_expression s [] cm == s) = false := by
          simpa using hx
        simp [hb] at h
    | .null | .bool _ | .num _ | .arr _ | .obj _ =>
      intro h
      simp only [Prod.mk.injEq] at h ⊢
      exact ⟨trivial, hr _ hwf h⟩
  · exact update_filter_value_eq_of_flag_false cm k v hwf
  · intro h
    simp only [Prod.mk.injEq] at h ⊢
    exact ⟨trivial, hr _ hwf h⟩

/-- update_property reports no change only on well-formed documents it leaves
unchanged (at any fuel). -/
theorem update_property_go_eq_of_flag_false
    (cm : List ((String × String) × String)) :
    ∀ (fuel : Nat) (j : Json), JsonWf j →
      (update_property_go cm fuel j).2 = false →
      (update_property_go cm fuel j).1 = j := by
  intro fuel
  induction fuel with
  | zero => intro j _ _; rfl
  | succ n ih =>
    intro j hwf
    match j, hwf with
    | .null, _ | .bool _, _ | .num _, _ | .str _, _ => intro _; rfl
    | .obj fields, hwf =>
      intro h
      simp only [update_property_go] at h ⊢
      cases hwf with
      | obj hnd hmem =>
        rw [mapChanged_eq_of_flag_false
          (fun kv hkv => update_property_field_eq_of_flag_false cm _ ih kv
            (hmem kv hkv)) h]
    | .arr items, hwf =>
      intro h
      simp only [update_property_go] at h ⊢
      cases hwf with
      | arr hmem =>
        rw [mapChanged_eq_of_flag_false (fun e he => ih e (hmem e he)) h]

/-- Claim C7: update_dax_expression preserves quoting style when renaming
table references: a single-quoted table stays quoted, an unquoted table
stays unquoted, and an unquoted table renamed to a name containing a space
becomes single-quoted. -/
theorem c7_quoting_preservation :
    update_dax_expression (sq ++ "Old Table" ++ sq ++ "[Col]")
        [("Old Table", "New Table")] [] = sq ++ "New Table" ++ sq ++ "[Col]" ∧
    update_dax_expression "OldTable[Col]" [("OldTable", "NewTable")] []
        = "NewTable[Col]" ∧
    update_dax_expression "OldTable[Col]" [("OldTable", "New Table")] []
        = sq ++ "New Table" ++ sq ++ "[Col]" := by
  refine ⟨?_, ?_, ?_⟩ <;> decide

/-- Claim C2, divergence witness: with one bookmark Bookmark1 and one
bookmarkNavigator whose bookmarkGroup literal is the empty string literal,
remove_unused_bookmarks removes the bookmark, deletes its file and removes
the bookmarks folder — the source compares the literal only against the
quoted bookmark name and has no all-bookmarks wildcard for an empty or
absent literal, contradicting the claim (and the repository's own tests)
that zero bookmarks are removed. -/
theorem c2_empty_literal_bookmark_removed :
    remove_unused_bookmarks
        [{ visualType := some "bookmarkNavigator"
           bookmarkGroupLiterals := [some (sq ++ sq)]
           visualLinkLiterals := [] }]
        [{ name := "Bookmark1", children := none }]
        ["Bookmark1"]
      = { items := [], removed := 1, usedSet := [],
          deletedFiles := ["Bookmark1"], dirRemoved := true } := by
  decide

/-- Claim C3, divergence witness: on the scenario of the repository's own
test (page Page1 with interactions (v1, hidden_v) and (v1, v2); visuals v1
and v2 visible, hidden_v hidden; no bookmark shows hidden_v),
remove_hidden_visuals_never_shown deletes the hidden visual's folder but the
page's visualInteractions are left untouched — the entry naming the deleted
visual survives, because the source never opens page.json in this action,
contradicting the claim that such entries are removed. -/
theorem c3_visual_interactions_untouched :
    remove_hidden_visuals_never_shown
        [{ name := some "v1", isHidden := false, folder := "Page1/visuals/v1" },
         { name := some "v2", isHidden := false, folder := "Page1/visuals/v2" },
         { name := some "hidden_v", isHidden := true,
           folder := "Page1/visuals/hidden_v" }]
        []
        [{ name := "Page1",
           visualInteractions := [("v1", "hidden_v"), ("v1", "v2")] }]
      = { alwaysHidden := ["hidden_v"],
          deletedFolders := ["Page1/visuals/hidden_v"],
          bookmarks := [],
          updatedBookmarks := 0,
          pages := [{ name := "Page1",
                      visualInteractions := [("v1", "hidden_v"), ("v1", "v2")] }] } := by
  decide

/-- Claim C4, divergence witness: when the report declares one custom visual
and no visual instantiates it, remove_unused_custom_visuals writes the file
but the publicCustomVisuals key survives with its old value, because the
assignment report_data["publicCustomVisuals"] = report_data.pop(...) removes
the key and immediately re-inserts it — contradicting the claim that the key
is removed. -/
theorem c4_unused_custom_visuals_key_survives :
    remove_unused_custom_visuals (some ["cv1"]) [some "columnChart"]
      = (some ["cv1"], true) := by
  decide

/-- Claim C5, divergence witness: the sanitize entry points of the source
take no dry-run flag (sanitize_powerbi_report dispatches each action on the
report path alone), so the only available invocation mutates the tree: a
visible Tooltip page is persisted as hidden unconditionally. -/
theorem c5_actions_persist_unconditionally :
    (hide_tooltip_drillthrough_pages
        [{ displayName := some "P2", bindingType := some "Tooltip",
           visibility := some "Visible" }]).1
      ≠ [{ displayName := some "P2", bindingType := some "Tooltip",
           visibility := some "Visible" }] ∧
    (hide_tooltip_drillthrough_pages
        [{ displayName := some "P2", bindingType := some "Tooltip",
           visibility := some "Visible" }]).2 = ["P2"] := by
  refine ⟨?_, ?_⟩ <;> decide

/-- Claim C6, counterexample: disable_show_items_with_no_data is not
idempotent.  On a visual with showAll keys under two sibling keys, the first
run deletes only the first one (the traversal's any() stops at the first
modified subtree), so the second run still computes a non-empty decision
set. -/
theorem c6_second_run_still_changes :
    (disable_show_items_with_no_data 4
        ((disable_show_items_with_no_data 4 [showAllTwice]).1)).2 ≠ 0 := by
  decide

/-- The write flag of an if-packaged (document, written) pair is its
condition. -/
theorem ite_flag (b : Bool) (x y : α) :
    (if b = true then (x, true) else (y, false)).2 = b := by
  cases b <;> simp

/-- When the write condition is false, the packaged result document is the
fallback. -/
theorem ite_write_false (b : Bool) (x y : α) (hb : b = false) :
    (if b = true then (x, true) else (y, false)).1 = y := by
  subst hb; simp

/-- Claim C10: update_pbir_component writes the file back exactly when
update_entity (when table_map is non-empty) or update_property (when
column_map is non-empty) reported a change on the parsed document, and on a
well-formed document for which neither reported a change, the in-memory
document the passes produced is the untouched input — nothing is lost by
skipping the write, and the on-disk bytes are never rewritten. -/
theorem c10_write_iff_changed (tm : List (String × String))
    (cm : List ((String × String) × String)) (fuel : Nat) (doc : Json)
    (hwf : JsonWf doc) :
    ((update_pbir_component tm cm fuel doc).2 =
      ((if tm.isEmpty then false else (update_entity_go tm fuel doc).2) ||
       (if cm.isEmpty then false
        else (update_property_go cm fuel
          (if tm.isEmpty then doc
           else (update_entity_go tm fuel doc).1)).2))) ∧
    ((update_pbir_component tm cm fuel doc).2 = false →
      (update_pbir_component tm cm fuel doc).1 = doc ∧
      (if cm.isEmpty then
         (if tm.isEmpty then doc else (update_entity_go tm fuel doc).1)
       else (update_property_go cm fuel
         (if tm.isEmpty then doc
          else (update_entity_go tm fuel doc).1)).1) = doc) := by
  have hflag : (update_pbir_component tm cm fuel doc).2 =
      ((if tm.isEmpty then (doc, false) else update_entity_go tm fuel doc).2 ||
       (if cm.isEmpty then
          ((if tm.isEmpty then (doc, false)
            else update_entity_go tm fuel doc).1, false)
        else update_property_go cm fuel
          (if tm.isEmpty then (doc, false)
           else update_entity_go tm fuel doc).1).2) :=
    ite_flag _ _ _
  constructor
  · rw [hflag]
    by_cases htm : tm.isEmpty <;> by_cases hcm : cm.isEmpty <;>
      simp [htm, hcm]
  · intro hw
    have hor := hw
    rw [hflag, Bool.or_eq_false_iff] at hor
    obtain ⟨he, hp⟩ := hor
    constructor
    · have hcond := hw
      rw [hflag] at hcond
      exact ite_write_false _ _ _ hcond
    · by_cases htm : tm.isEmpty <;> by_cases hcm : cm.isEmpty
      · simp [htm, hcm]
      · have hp2 : (update_property_go cm fuel doc).2 = false := by
          simpa [htm, hcm] using hp
        simpa [htm, hcm] using
          update_property_go_eq_of_flag_false cm fuel doc hwf hp2
      · have he2 : (update_entity_go tm fuel doc).2 = false := by
          simpa [htm, hcm] using he
        simpa [htm, hcm] using
          update_entity_go_eq_of_flag_false tm fuel doc he2
      · have he2 : (update_entity_go tm fuel doc).2 = false := by
          simpa [htm, hcm] using he
        have hd := update_entity_go_eq_of_flag_false tm fuel doc he2
        have hp2 : (update_property_go cm fuel doc).2 = false := by
          have hx := hp
          simp [htm, hcm, hd] at hx
          exact hx
        have hfin := update_property_go_eq_of_flag_false cm fuel doc hwf hp2
        simp [htm, hcm, hd, hfin]

/-- Witness for c10_write_iff_changed at a concrete input: a document the
maps do not touch is not written back and survives both passes unchanged. -/
theorem c10_write_iff_changed_witness :
    (update_pbir_component [("A", "B")] [(("A", "x"), "y")] 3
      (Json.obj [("other", Json.str "v")])).2 = false ∧
    (update_pbir_component [("A", "B")] [(("A", "x"), "y")] 3
      (Json.obj [("other", Json.str "v")])).1
      = Json.obj [("other", Json.str "v")] := by
  have h := c10_write_iff_changed [("A", "B")] [(("A", "x"), "y")] 3
    (Json.obj [("other", Json.str "v")])
    (JsonWf.obj (by simp) (by
      intro kv hkv
      simp only [List.mem_singleton] at hkv
      subst hkv
      exact JsonWf.str "v"))
  have hw : (update_pbir_component [("A", "B")] [(("A", "x"), "y")] 3
      (Json.obj [("other", Json.str "v")])).2 = false := by
    rw [h.1]; decide
  exact ⟨hw, ((h.2 hw).1)⟩

/-- Claim C1: a CSV row that renames both a table (T to T2) and a column
(C to C2) passes the row filter; the mapping builder keys the column entry
by the post-rename table name — the maps are exactly T↦T2 and (T2, C)↦C2 and
(T, C) is not a ColumnMap key; and on a document holding Entity T with
Property C, update_entity first rewrites the Entity to T2, after which
update_property matches (T2, C) and rewrites the Property to C2. -/
theorem c1_column_map_keying (T C T2 C2 : String)
    (hT : T ≠ "") (hC : C ≠ "") (hT2 : T2 ≠ "") (hC2 : C2 ≠ "")
    (hne : T ≠ T2) :
    rowAccepted { old_tbl := T, old_col := C, new_tbl := T2, new_col := C2 }
      = true ∧
    build_rename_maps
        [{ old_tbl := T, old_col := C, new_tbl := T2, new_col := C2 }]
      = ([(T, T2)], [((T2, C), C2)]) ∧
    lookupPair [((T2, C), C2)] (T, C) = none ∧
    (update_entity_go [(T, T2)] 8 (columnBindingDoc T C)).1
      = columnBindingDoc T2 C ∧
    (update_property_go [((T2, C), C2)] 8 (columnBindingDoc T2 C)).1
      = columnBindingDoc T2 C2 := by
  have hne2 : T2 ≠ T := Ne.symm hne
  refine ⟨?_, ?_, ?_, ?_, ?_⟩
  · simp [rowAccepted, hT, hT2]
  · simp [build_rename_maps, dictInsert, lookupStr, hT2, hC, hC2, hne2]
  · simp [lookupPair, Prod.ext_iff, hne]
  · simp [columnBindingDoc, update_entity_go, update_entity_field,
      mapChanged, lookupStr]
  · simp [columnBindingDoc, update_property_go, update_property_field,
      mapChanged, columnShape, setColumnShape, setField, getField, pyGetObj,
      lookupPair, List.lookup, hT2, hC]

/-- Witness for c1_column_map_keying at the concrete row
(Sales, Amt, Sales2, Amt2). -/
theorem c1_column_map_keying_witness :
    rowAccepted ⟨"Sales", "Amt", "Sales2", "Amt2"⟩ = true ∧
    build_rename_maps [⟨"Sales", "Amt", "Sales2", "Amt2"⟩]
      = ([("Sales", "Sales2")], [(("Sales2", "Amt"), "Amt2")]) ∧
    lookupPair [(("Sales2", "Amt"), "Amt2")] ("Sales", "Amt") = none ∧
    (update_entity_go [("Sales", "Sales2")] 8
        (columnBindingDoc "Sales" "Amt")).1
      = columnBindingDoc "Sales2" "Amt" ∧
    (update_property_go [(("Sales2", "Amt"), "Amt2")] 8
        (columnBindingDoc "Sales2" "Amt")).1
      = columnBindingDoc "Sales2" "Amt2" :=
  c1_column_map_keying "Sales" "Amt" "Sales2" "Amt2"
    (by decide) (by decide) (by decide) (by decide) (by decide)

/-- A page updated by hide_tooltip_drillthrough_pages is out of the decision
set of the next run. -/
theorem pageDecision_hidePage (p : PageDoc) :
    pageDecision (hidePage p) = false := by
  unfold hidePage
  by_cases hd : pageDecision p
  · simp only [hd, if_true]
    simp [pageDecision, pageNeedsHiding]
  · simp only [hd, if_false]
    exact (Bool.not_eq_true _).mp hd

/-- hidePage is idempotent. -/
theorem hidePage_idem (p : PageDoc) : hidePage (hidePage p) = hidePage p := by
  rw [hidePage, pageDecision_hidePage]
  simp

/-- Claim C6, amended: not every sanitize action is idempotent
(disable_show_items_with_no_data is refuted by a counterexample), but the
page-level actions are: a second run of hide_tooltip_drillthrough_pages over
the pages the first run produced computes an empty decision set and changes
no page, and a second run of set_first_page_as_active over the pages.json of
the first run (non-empty pageOrder, as an empty one raises in the source)
reports no change and leaves it untouched. -/
theorem c6_page_actions_idempotent (pages : List PageDoc) (pd : PagesConfig)
    (h : pd.pageOrder ≠ []) :
    hide_tooltip_drillthrough_pages (hide_tooltip_drillthrough_pages pages).1
      = ((hide_tooltip_drillthrough_pages pages).1, []) ∧
    set_first_page_as_active (set_first_page_as_active pd).1
      = ((set_first_page_as_active pd).1, false) := by
  constructor
  · unfold hide_tooltip_drillthrough_pages
    simp only [List.map_map]
    refine congrArg₂ Prod.mk ?_ ?_
    · refine List.map_congr_left ?_
      intro p _
      exact hidePage_idem p
    · have hfil : (pages.map hidePage).filter pageDecision = [] := by
        rw [List.filter_eq_nil_iff]
        intro p hp
        obtain ⟨q, _, rfl⟩ := List.mem_map.mp hp
        simp [pageDecision_hidePage]
      rw [hfil]
      rfl
  · obtain ⟨order, active⟩ := pd
    match order, h with
    | first :: rest, _ =>
      unfold set_first_page_as_active
      by_cases ha : active == some first
      · simp [ha]
      · simp [ha]

/-- Witness for c6_page_actions_idempotent at a concrete tree: one visible
tooltip page, and a pages.json whose active page is not first. -/
theorem c6_page_actions_idempotent_witness :
    hide_tooltip_drillthrough_pages (hide_tooltip_drillthrough_pages
        [{ displayName := some "P", bindingType := some "Tooltip",
           visibility := some "Visible" }]).1
      = ((hide_tooltip_drillthrough_pages
          [{ displayName := some "P", bindingType := some "Tooltip",
             visibility := some "Visible" }]).1, []) ∧
    set_first_page_as_active (set_first_page_as_active
        { pageOrder := ["a", "b"], activePageName := some "b" }).1
      = ((set_first_page_as_active
          { pageOrder := ["a", "b"], activePageName := some "b" }).1, false) :=
  c6_page_actions_idempotent
    [{ displayName := some "P", bindingType := some "Tooltip",
       visibility := some "Visible" }]
    { pageOrder := ["a", "b"], activePageName := some "b" }
    (by decide)

/-- When every row holds the four required keys, the row loop succeeds and
returns exactly the projected rows passing the filter. -/
theorem projectRows_eq_of_keys (rows : List (List (String × String)))
    (hrows : ∀ row ∈ rows, (row.lookup "old_tbl").isSome
      ∧ (row.lookup "old_col").isSome ∧ (row.lookup "new_tbl").isSome
      ∧ (row.lookup "new_col").isSome) :
    projectRows rows = .ok ((rows.map projRow).filter rowAccepted) := by
  induction rows with
  | nil => rfl
  | cons row rest ih =>
    obtain ⟨h1, h2, h3, h4⟩ := hrows row (by simp)
    obtain ⟨v1, hv1⟩ := Option.isSome_iff_exists.mp h1
    obtain ⟨v2, hv2⟩ := Option.isSome_iff_exists.mp h2
    obtain ⟨v3, hv3⟩ := Option.isSome_iff_exists.mp h3
    obtain ⟨v4, hv4⟩ := Option.isSome_iff_exists.mp h4
    have hrest := ih (fun r hr => hrows r (by simp [hr]))
    unfold projectRows
    simp only [requireField, hv1, hv2, hv3, hv4, hrest, List.map_cons,
      List.filter_cons, projRow, Option.getD_some, bind, Except.bind, pure,
      Except.pure]

/-- Claim C8: loading the CSV mapping fails whenever a required header column
is missing after BOM stripping, and the batch update then touches no
document; with valid headers the rows kept are exactly those with a
non-empty old_tbl and (a non-empty new_tbl or both column fields
non-empty). -/
theorem c8_csv_header_validation (fieldnames : List String)
    (rows : List (List (String × String))) (docs : List Json) (fuel : Nat) :
    ((["old_tbl", "old_col", "new_tbl", "new_col"].all
        ((fieldnames.map stripBom).contains ·)) = false →
      (∃ msg, load_csv_mapping fieldnames rows = .error msg) ∧
      batch_update_pbir_project fieldnames rows fuel docs = docs) ∧
    ((["old_tbl", "old_col", "new_tbl", "new_col"].all
        ((fieldnames.map stripBom).contains ·)) = true →
      (∀ row ∈ rows, (row.lookup "old_tbl").isSome
        ∧ (row.lookup "old_col").isSome ∧ (row.lookup "new_tbl").isSome
        ∧ (row.lookup "new_col").isSome) →
      load_csv_mapping fieldnames rows
        = .ok ((rows.map projRow).filter rowAccepted)) := by
  constructor
  · intro hbad
    have hload : load_csv_mapping fieldnames rows =
        .error "CSV file must contain the following columns: old_tbl, old_col, new_tbl, new_col" := by
      simp only [load_csv_mapping, hbad, Bool.not_false, if_true]
    refine ⟨⟨_, hload⟩, ?_⟩
    unfold batch_update_pbir_project
    rw [hload]
  · intro hok hrows
    unfold load_csv_mapping
    simp only [hok, Bool.not_true, if_false]
    exact projectRows_eq_of_keys rows hrows

/-- Witness for c8_csv_header_validation: a header missing new_col fails and
leaves the documents alone; a valid header keeps exactly the row with a
non-empty old_tbl and new_tbl and drops the row with an empty old_tbl. -/
theorem c8_csv_header_validation_witness :
    (∃ msg, load_csv_mapping ["old_tbl", "old_col", "new_tbl"] [] = .error msg) ∧
    batch_update_pbir_project ["old_tbl", "old_col", "new_tbl"] [] 3
      [Json.str "x"] = [Json.str "x"] ∧
    load_csv_mapping ["old_tbl", "old_col", "new_tbl", "new_col"]
        [[("old_tbl", "A"), ("old_col", ""), ("new_tbl", "B"), ("new_col", "")],
         [("old_tbl", ""), ("old_col", "c"), ("new_tbl", "d"), ("new_col", "e")]]
      = .ok [⟨"A", "", "B", ""⟩] := by
  have h1 := (c8_csv_header_validation ["old_tbl", "old_col", "new_tbl"] []
    [Json.str "x"] 3).1 (by decide)
  have h2 := (c8_csv_header_validation ["old_tbl", "old_col", "new_tbl", "new_col"]
    [[("old_tbl", "A"), ("old_col", ""), ("new_tbl", "B"), ("new_col", "")],
     [("old_tbl", ""), ("old_col", "c"), ("new_tbl", "d"), ("new_col", "e")]]
    [] 0).2 (by decide) (by decide)
  exact ⟨h1.1, h1.2, h2.trans (congrArg Except.ok (by decide))⟩

/-- Claim C9, counterexample: a measure-scope rule whose expression raises on
the only measure yields passed = true with no violations — the error is
caught by an except-pass and silently skipped, not recorded as a
failed/violated item as the claim states. -/
theorem c9_measure_error_silently_skipped :
    evaluate_expression_rule { displayName := "Rule", description := none }
        { pages := [], entities := [{ name := some "T", measures := [some "M"] }],
          bookmarks := [] }
        (fun _ => .error "boom") .measure
      = (true, []) := rfl

/-- Claim C9, amended: every error raised while evaluating an
expression-based rule is caught per unit and never aborts the run, but only
the report and page scopes record it as a violation ("Expression error");
at visual, measure and bookmark scope the erroring unit is silently skipped
— it contributes no violation — while the remaining units are still
evaluated. -/
theorem c9_scoped_error_handling (rule : RuleSpec) (ctx : PbirContext)
    (ev : EvalEnv → Except String Bool) (msg : String) (p : PageCtx)
    (pname : String) (pdisp : Option String)
    (v : Option String × Option String)
    (vs : List (Option String × Option String))
    (ename : Option String) (m : Option String) (ms : List (Option String))
    (b : Option String) :
    (ev .report = .error msg →
      evaluate_expression_rule rule ctx ev .report
        = (false, [{ message := "Expression error: " ++ msg }])) ∧
    (ev (.page p) = .error msg →
      evaluate_expression_rule rule { ctx with pages := [p] } ev .page
        = (false, [{ message := "Expression error on page: " ++ msg }])) ∧
    (ev (.visual ⟨pname, pdisp, v :: vs⟩ v) = .error msg →
      (evaluate_expression_rule rule
          { pages := [⟨pname, pdisp, v :: vs⟩], entities := [], bookmarks := [] }
          ev .visual).2
        = vs.flatMap (fun v2 =>
            match ev (.visual ⟨pname, pdisp, v :: vs⟩ v2) with
            | .ok false => [{ message := ruleFailMessage rule,
                              pageName := some (pdisp.getD pname),
                              visualName := some (v2.1.getD "unknown"),
                              visualType := some (v2.2.getD "unknown") }]
            | _ => [])) ∧
    (ev (.measure ⟨ename, m :: ms⟩ m) = .error msg →
      (evaluate_expression_rule rule
          { pages := [], entities := [⟨ename, m :: ms⟩], bookmarks := [] }
          ev .measure).2
        = ms.flatMap (fun m2 =>
            match ev (.measure ⟨ename, m :: ms⟩ m2) with
            | .ok false => [{ message := ruleFailMessage rule,
                              measureName := some (m2.getD "unknown"),
                              entityName := some (ename.getD "Unknown") }]
            | _ => [])) ∧
    (ev (.bookmark b) = .error msg →
      evaluate_expression_rule rule
          { ctx with bookmarks := b :: ctx.bookmarks } ev .bookmark
        = evaluate_expression_rule rule ctx ev .bookmark) := by
  refine ⟨?_, ?_, ?_, ?_, ?_⟩
  · intro h
    simp [evaluate_expression_rule, h]
  · intro h
    simp [evaluate_expression_rule, h]
  · intro h
    simp only [evaluate_expression_rule, List.flatMap_cons, List.flatMap_nil,
      h, List.append_nil, List.nil_append]
    apply congrArg
    funext v2
    cases hev : ev (.visual ⟨pname, pdisp, v :: vs⟩ v2) with
    | ok bv => cases bv <;> rfl
    | error e => rfl
  · intro h
    simp only [evaluate_expression_rule, List.flatMap_cons, List.flatMap_nil,
      h, List.append_nil, List.nil_append]
    apply congrArg
    funext m2
    cases hev : ev (.measure ⟨ename, m :: ms⟩ m2) with
    | ok bv => cases bv <;> rfl
    | error e => rfl
  · intro h
    simp [evaluate_expression_rule, h]

/-- Witness for c9_scoped_error_handling with an evaluator that raises on
every unit: the report scope records the error and fails, while the visual
and measure scopes collect no violation. -/
theorem c9_scoped_error_handling_witness :
    evaluate_expression_rule ⟨"R", none⟩ ⟨[], [], []⟩
        (fun _ => .error "boom") .report
      = (false, [{ message := "Expression error: " ++ "boom" }]) ∧
    (evaluate_expression_rule ⟨"R", none⟩
        ⟨[⟨"p1", none, [(none, none)]⟩], [], []⟩
        (fun _ => .error "boom") .visual).2 = [] ∧
    (evaluate_expression_rule ⟨"R", none⟩ ⟨[], [⟨none, [none]⟩], []⟩
        (fun _ => .error "boom") .measure).2 = [] := by
  have h := c9_scoped_error_handling ⟨"R", none⟩ ⟨[], [], []⟩
    (fun _ => .error "boom") "boom" ⟨"p1", none, []⟩ "p1" none (none, none) []
    none none [] none
  exact ⟨h.1 rfl, (h.2.2.1 rfl).trans rfl, (h.2.2.2.1 rfl).trans rfl⟩

end PbirUtils
